import Mathlib

/-!
Verification of three command-line utilities: an in-memory airline booking
system (`Hash Hackers.py`), an SQLite-backed bank loan tracker
(`Bank_Loan.py`) and a CSV-based personal health log
(`Health_checkup.py`).

The Python dictionaries of the airline system are modelled as association
lists with unique keys; `dget`, `dput` and `ddel` model dictionary lookup,
assignment (`d[k] = v`, which overwrites an existing key in place) and
deletion (`del d[k]`).  Python `int`/`float` values coming from the menu
prompts are modelled as `ℤ`/`ℚ`; a raw input string that fails numeric
conversion is modelled as `none`, and the `ValueError` raised by
`int(...)`/`float(...)` on such input is modelled with `Except`.
-/

/-- Dictionary lookup `d.get(k)` / `k in d` on an association list. -/
def dget {K V : Type} [DecidableEq K] : List (K × V) → K → Option V
  | [], _ => none
  | (k', v') :: rest, k => if k' = k then some v' else dget rest k

/-- Dictionary assignment `d[k] = v`: overwrite the existing entry for `k`
if present, otherwise append a new entry (Python dicts keep insertion
order, so a fresh key goes to the end). -/
def dput {K V : Type} [DecidableEq K] : List (K × V) → K → V → List (K × V)
  | [], k, v => [(k, v)]
  | (k', v') :: rest, k, v =>
    if k' = k then (k, v) :: rest else (k', v') :: dput rest k v

/-- Dictionary deletion `del d[k]`: remove the entry for `k` (first
occurrence; a well-formed dictionary has at most one). -/
def ddel {K V : Type} [DecidableEq K] : List (K × V) → K → List (K × V)
  | [], _ => []
  | (k', v') :: rest, k => if k' = k then rest else (k', v') :: ddel rest k

/-- Well-formedness of a dictionary: keys are pairwise distinct (every
Python `dict` satisfies this by construction). -/
def dkeysNodup {K V : Type} (l : List (K × V)) : Prop :=
  (l.map Prod.fst).Nodup

/-- `len(d)` on a dictionary. -/
def dlen {K V : Type} (l : List (K × V)) : ℕ := l.length

/-! ### Airline management system (`Hash Hackers.py`) -/

/-- One record of `FlightManagement.flights`: destination, total seats,
available seats and ticket price. -/
structure Flight where
  destination : String
  seats : ℤ
  available_seats : ℤ
  price : ℚ
deriving DecidableEq, Repr

/-- One record of `BookingManagement.bookings`: passenger name and flight
number. -/
structure Booking where
  passenger_name : String
  flight_no : String
deriving DecidableEq, Repr

/-- `FlightManagement.flights`: flight number ↦ flight record. -/
abbrev FlightStore : Type := List (String × Flight)

/-- `BookingManagement.bookings`: ticket id ↦ booking record.  Ticket ids
are Python ints (the menu reads them with `int(input(...))`). -/
abbrev BookingStore : Type := List (ℤ × Booking)

/-- `FlightManagement.add_flight`: a duplicate flight number is rejected
(store unchanged); otherwise the flight is inserted with
`available_seats = seats`.  (`seats` and `price` reach this function
already converted by the menu's `int(...)`/`float(...)`.) -/
def add_flight (fs : FlightStore) (flight_no destination : String)
    (seats : ℤ) (price : ℚ) : FlightStore :=
  match dget fs flight_no with
  | some _ => fs
  | none => dput fs flight_no ⟨destination, seats, seats, price⟩

/-- `FlightManagement.update_price`: an unknown flight number is rejected;
otherwise the price field is overwritten. -/
def update_price (fs : FlightStore) (flight_no : String) (price : ℚ) :
    FlightStore :=
  match dget fs flight_no with
  | none => fs
  | some f => dput fs flight_no { f with price := price }

/-- `BookingManagement.book_ticket`: an unknown flight number or
`available_seats <= 0` is rejected; otherwise the booking is stored under
`ticket_id = len(self.bookings) + 1` and the flight's available seats are
decremented.  Returns (bookings, flights). -/
def book_ticket (bs : BookingStore) (passenger_name flight_no : String)
    (fs : FlightStore) : BookingStore × FlightStore :=
  match dget fs flight_no with
  | none => (bs, fs)
  | some flight =>
    if flight.available_seats ≤ 0 then (bs, fs)
    else
      let ticket_id : ℤ := (dlen bs : ℤ) + 1
      (dput bs ticket_id ⟨passenger_name, flight_no⟩,
       dput fs flight_no
         { flight with available_seats := flight.available_seats - 1 })

/-- `BookingManagement.cancel_booking`: an unknown ticket id is rejected;
otherwise the referenced flight's available seats are incremented and the
booking is deleted.  (The source indexes `flights[flight_no]` directly; a
booking always references an existing flight in every reachable state, and
flights are never deleted, so the `none` branch of the inner match is
unreachable from program states.)  Returns (bookings, flights). -/
def cancel_booking (bs : BookingStore) (ticket_id : ℤ) (fs : FlightStore) :
    BookingStore × FlightStore :=
  match dget bs ticket_id with
  | none => (bs, fs)
  | some booking =>
    let fs' :=
      match dget fs booking.flight_no with
      | none => fs
      | some flight =>
        dput fs booking.flight_no
          { flight with available_seats := flight.available_seats + 1 }
    (ddel bs ticket_id, fs')

/-- The mutable state of `AirlineManagementSystem`: the two stores owned by
the two parent classes. -/
structure AirState where
  flights : FlightStore
  bookings : BookingStore

/-- The state-mutating menu operations of the airline system (choices 1, 2,
5 and 6; the remaining choices are read-only). -/
inductive AirOp where
  | addFlight (flight_no destination : String) (seats : ℤ) (price : ℚ)
  | updatePrice (flight_no : String) (price : ℚ)
  | bookTicket (passenger_name flight_no : String)
  | cancelBooking (ticket_id : ℤ)
deriving DecidableEq, Repr

/-- Effect of one menu operation on the airline state. -/
def stepAir (s : AirState) : AirOp → AirState
  | .addFlight no dest seats price =>
    { s with flights := add_flight s.flights no dest seats price }
  | .updatePrice no price =>
    { s with flights := update_price s.flights no price }
  | .bookTicket name no =>
    let r := book_ticket s.bookings name no s.flights
    ⟨r.2, r.1⟩
  | .cancelBooking tid =>
    let r := cancel_booking s.bookings tid s.flights
    ⟨r.2, r.1⟩

/-- Run a sequence of menu operations. -/
def runOps (ops : List AirOp) (s : AirState) : AirState :=
  ops.foldl stepAir s

/-- The empty initial state built by `AirlineManagementSystem.__init__`. -/
def initAir : AirState := ⟨[], []⟩

/-- Number of bookings in the store that reference flight `no`. -/
def countB (bs : BookingStore) (no : String) : ℕ :=
  (bs.filter (fun p => p.2.flight_no = no)).length

/-- The seat-bounds invariant claimed by the spec's data model:
`0 ≤ available_seats ≤ seats` for every flight in the store. -/
def flightBounds (s : AirState) : Prop :=
  ∀ no f, dget s.flights no = some f →
    0 ≤ f.available_seats ∧ f.available_seats ≤ f.seats

/-- Strengthened inductive invariant: every flight has
`0 ≤ available_seats` and `available_seats + (bookings referencing it)
≤ seats`, and every booking references an existing flight. -/
def invStrong (s : AirState) : Prop :=
  (∀ no f, dget s.flights no = some f →
    0 ≤ f.available_seats ∧
      f.available_seats + (countB s.bookings no : ℤ) ≤ f.seats) ∧
  (∀ p ∈ s.bookings, ∃ f, dget s.flights p.2.flight_no = some f)

/-- `True` iff the operation gives `add_flight` a non-negative seat count
(always true for the other operations). -/
def opSeatsOk : AirOp → Bool
  | .addFlight _ _ seats _ => decide (0 ≤ seats)
  | _ => true

/-! ### Python exceptions raised by the scripts -/

/-- Exceptions that the scripts can raise: `ValueError` from
`int(...)`/`float(...)` on non-numeric text, and
`sqlite3.IntegrityError` from inserting a duplicate `UNIQUE` column. -/
inductive PyErr where
  | valueError
  | integrityError
deriving DecidableEq, Repr

/-- `float(input(...))`: a parse failure (`none`) raises `ValueError`. -/
def pyFloat (x : Option ℚ) : Except PyErr ℚ :=
  match x with
  | some q => Except.ok q
  | none => Except.error PyErr.valueError

/-- `int(input(...))`: a parse failure (`none`) raises `ValueError`. -/
def pyInt (x : Option ℤ) : Except PyErr ℤ :=
  match x with
  | some n => Except.ok n
  | none => Except.error PyErr.valueError

/-! ### Airline menu loop (`AirlineManagementSystem.menu`) -/

/-- The raw inputs read by one iteration of the airline menu; numeric
prompts carry `none` when the text does not parse. -/
structure AirInputs where
  flight_no : String
  destination : String
  passenger_name : String
  seats : Option ℤ
  price : Option ℚ
  ticket_id : Option ℤ
deriving Repr

/-- The body of one iteration of `AirlineManagementSystem.menu`, before the
`except ValueError` handler: the `int(...)`/`float(...)` conversions of the
raw inputs can raise.  Choices 3, 4, 8 and 9 only print (or exit) and leave
the state unchanged; an unrecognised choice prints an error message. -/
def airlineMenuBody (choice : String) (inp : AirInputs) (s : AirState) :
    Except PyErr AirState :=
  match choice with
  | "1" => do
    let seats ← pyInt inp.seats
    let price ← pyFloat inp.price
    Except.ok { s with
      flights := add_flight s.flights inp.flight_no inp.destination seats price }
  | "2" => do
    let price ← pyFloat inp.price
    Except.ok { s with
      flights := update_price s.flights inp.flight_no price }
  | "3" => Except.ok s
  | "4" => Except.ok s
  | "5" =>
    let r := book_ticket s.bookings inp.passenger_name inp.flight_no s.flights
    Except.ok ⟨r.2, r.1⟩
  | "6" => do
    let tid ← pyInt inp.ticket_id
    let r := cancel_booking s.bookings tid s.flights
    Except.ok ⟨r.2, r.1⟩
  | "7" => do
    let _ ← pyInt inp.ticket_id
    Except.ok s
  | "8" => Except.ok s
  | "9" => Except.ok s
  | _ => Except.ok s

/-- One iteration of `AirlineManagementSystem.menu`: the body runs inside
`try ... except ValueError`, which prints a message and continues the loop
with the state unchanged.  Any other exception would escape (none exists in
this script). -/
def airlineMenuStep (choice : String) (inp : AirInputs) (s : AirState) :
    Except PyErr AirState :=
  match airlineMenuBody choice inp s with
  | Except.ok t => Except.ok t
  | Except.error PyErr.valueError => Except.ok s
  | Except.error e => Except.error e

/-! ### Bank loan system (`Bank_Loan.py`) -/

/-- One row of the `customers` table. -/
structure Customer where
  id : ℕ
  name : String
  email : String
  phone : String
deriving DecidableEq, Repr

/-- One row of the `loans` table. -/
structure Loan where
  id : ℕ
  customer_id : ℕ
  amount : ℚ
  interest_rate : ℚ
  term : ℤ
  status : String
  balance : ℚ
deriving DecidableEq, Repr

/-- The database `bank_loan.db`: the two tables.  `AUTOINCREMENT` ids are
modelled as row count + 1 (no delete statement exists in the script, so
the two coincide). -/
structure BankDB where
  customers : List Customer
  loans : List Loan
deriving DecidableEq, Repr

/-- `SELECT id FROM customers WHERE email=?` + `fetchone()`. -/
def findCustomerByEmail (cs : List Customer) (email : String) :
    Option Customer :=
  cs.find? (fun c => c.email = email)

/-- Core of `repay_loan` after the two `input(...)` reads:
`SELECT balance FROM loans WHERE id=?`, compute the new balance floored at
`0`, `UPDATE loans SET balance=? WHERE id=?`; an unknown loan id only
prints a message. -/
def repay_loan (loans : List Loan) (loan_id : ℕ) (payment : ℚ) :
    List Loan :=
  match loans.find? (fun l => l.id = loan_id) with
  | none => loans
  | some l =>
    let new_balance := if l.balance - payment < 0 then 0
                       else l.balance - payment
    loans.map (fun l' => if l'.id = loan_id then
      { l' with balance := new_balance } else l')

/-- `approve_loan`: `UPDATE loans SET status='Approved' WHERE id=?`, with
no guard on the current status. -/
def approve_loan (loans : List Loan) (loan_id : ℕ) : List Loan :=
  loans.map (fun l => if l.id = loan_id then
    { l with status := "Approved" } else l)

/-- `reject_loan`: `UPDATE loans SET status='Rejected' WHERE id=?`, with
no guard on the current status. -/
def reject_loan (loans : List Loan) (loan_id : ℕ) : List Loan :=
  loans.map (fun l => if l.id = loan_id then
    { l with status := "Rejected" } else l)

/-- `add_customer`: `INSERT INTO customers (name, email, phone)`.  The
`UNIQUE` constraint on `email` raises `sqlite3.IntegrityError` on a
duplicate; nothing in the script catches it. -/
def add_customer_step (db : BankDB) (name email phone : String) :
    Except PyErr BankDB :=
  if (db.customers.find? (fun c => c.email = email)).isSome then
    Except.error PyErr.integrityError
  else
    Except.ok { db with customers :=
      db.customers ++ [⟨db.customers.length + 1, name, email, phone⟩] }

/-- `apply_loan`: looks the customer up by email (an unknown email only
prints a message), then converts amount, rate and term with
`float(...)`/`float(...)`/`int(...)` on raw input — each conversion can
raise `ValueError`, and nothing in the script catches it — and inserts a
`"Pending"` loan with `balance = amount`. -/
def apply_loan_step (db : BankDB) (email : String)
    (amountIn rateIn : Option ℚ) (termIn : Option ℤ) :
    Except PyErr BankDB :=
  match findCustomerByEmail db.customers email with
  | none => Except.ok db
  | some c => do
    let amount ← pyFloat amountIn
    let rate ← pyFloat rateIn
    let term ← pyInt termIn
    Except.ok { db with loans := db.loans ++
      [⟨db.loans.length + 1, c.id, amount, rate, term, "Pending", amount⟩] }

/-- `repay_loan` at the menu level: reads the loan id, then
`payment = float(input(...))` — which can raise `ValueError`, uncaught —
then runs the core update. -/
def repay_loan_step (db : BankDB) (loan_id : ℕ) (paymentIn : Option ℚ) :
    Except PyErr BankDB := do
  let payment ← pyFloat paymentIn
  Except.ok { db with loans := repay_loan db.loans loan_id payment }

/-- The raw inputs read by one iteration of the bank menu. -/
structure BankInputs where
  name : String
  email : String
  phone : String
  loan_id : ℕ
  amount : Option ℚ
  rate : Option ℚ
  term : Option ℤ
  payment : Option ℚ
deriving Repr

/-- One iteration of the bank loan `menu` loop.  Unlike the airline menu,
no `try`/`except` appears anywhere in `Bank_Loan.py`: an exception raised
inside a handler propagates out of `menu()` and terminates the process. -/
def bankMenuStep (choice : String) (inp : BankInputs) (db : BankDB) :
    Except PyErr BankDB :=
  match choice with
  | "1" => add_customer_step db inp.name inp.email inp.phone
  | "2" => apply_loan_step db inp.email inp.amount inp.rate inp.term
  | "3" => Except.ok { db with loans := approve_loan db.loans inp.loan_id }
  | "4" => Except.ok { db with loans := reject_loan db.loans inp.loan_id }
  | "5" => Except.ok db
  | "6" => repay_loan_step db inp.loan_id inp.payment
  | "7" => Except.ok db
  | _ => Except.ok db

/-! ### Health checkup tool (`Health_checkup.py`) -/

/-- Round-half-to-even at the integer scale, the semantics of Python's
built-in `round`.  For non-tie arguments it agrees with rounding to the
nearest integer. -/
def pyRound (x : ℚ) : ℤ :=
  if x - ⌊x⌋ = 1 / 2 then (if Even ⌊x⌋ then ⌊x⌋ else ⌊x⌋ + 1)
  else round x

/-- `round(x, 2)`. -/
def pyRound2 (x : ℚ) : ℚ := (pyRound (x * 100) : ℚ) / 100

/-- `calc_bmi`: returns `0.0` for a non-positive height, otherwise the
weight divided by the squared height in metres, rounded to two decimals. -/
def calc_bmi (weight_kg height_cm : ℚ) : ℚ :=
  if height_cm ≤ 0 then 0
  else
    let h_m := height_cm / 100
    pyRound2 (weight_kg / (h_m * h_m))

/-- `bmi_category`: threshold classification, `"unknown"` for a zero
BMI. -/
def bmi_category (bmi : ℚ) : String :=
  if bmi = 0 then "unknown"
  else if bmi < 18.5 then "Underweight"
  else if bmi < 25 then "Normal"
  else if bmi < 30 then "Overweight"
  else "Obese"

/-- The fields of a health-log entry read by `flag_vitals`; a numeric field
is `none` when the prompt was skipped or did not parse.  The remaining
fields of an entry (date, age, sex, weight, height, bmi, notes) are not
inspected by `flag_vitals`. -/
structure Entry where
  temp_c : Option ℚ
  hr_bpm : Option ℤ
  bp_systolic : Option ℤ
  bp_diastolic : Option ℤ
  blood_glucose_mg_dl : Option ℚ
  bmi_category : String
deriving Repr

/-- Temperature block of `flag_vitals`. -/
def temp_warnings (t : Option ℚ) : List String :=
  match t with
  | none => []
  | some t =>
    if t ≥ 38 then
      ["Fever (temp " ++ toString t ++ "°C). Consider medical advice."]
    else if t < 35 then
      ["Low temperature (" ++ toString t ++ "°C)."]
    else []

/-- Heart-rate block of `flag_vitals`. -/
def hr_warnings (hr : Option ℤ) : List String :=
  match hr with
  | none => []
  | some hr =>
    if hr < 50 then ["Low resting HR (" ++ toString hr ++ " bpm)."]
    else if hr > 120 then ["High resting HR (" ++ toString hr ++ " bpm)."]
    else []

/-- Blood-pressure block of `flag_vitals` (runs only when both readings
are present). -/
def bp_warnings (sysv diav : Option ℤ) : List String :=
  match sysv, diav with
  | some s, some d =>
    if s ≥ 180 ∨ d ≥ 120 then
      ["Hypertensive crisis (BP " ++ toString s ++ "/" ++ toString d ++
        "). Seek urgent care."]
    else if s ≥ 140 ∨ d ≥ 90 then
      ["High BP (hypertension) detected: " ++ toString s ++ "/" ++
        toString d ++ "."]
    else if s < 90 ∨ d < 60 then
      ["Low BP detected: " ++ toString s ++ "/" ++ toString d ++ "."]
    else []
  | _, _ => []

/-- Blood-glucose block of `flag_vitals`. -/
def glucose_warnings (bg : Option ℚ) : List String :=
  match bg with
  | none => []
  | some bg =>
    if bg ≥ 200 then
      ["Very high blood glucose (" ++ toString bg ++
        " mg/dL). Seek medical advice."]
    else if bg ≥ 126 then
      ["High fasting blood glucose (" ++ toString bg ++ " mg/dL)."]
    else []

/-- BMI-category block of `flag_vitals`: warns only for the three named
categories. -/
def bmi_cat_warnings (c : String) : List String :=
  if c = "Underweight" then
    ["Underweight — consider nutrition evaluation."]
  else if c = "Overweight" then
    ["Overweight — consider lifestyle changes."]
  else if c = "Obese" then
    ["Obese — medical/lifestyle review recommended."]
  else []

/-- `flag_vitals`: the warnings accumulated by the five independent
threshold blocks, in source order. -/
def flag_vitals (e : Entry) : List String :=
  temp_warnings e.temp_c ++ hr_warnings e.hr_bpm ++
    bp_warnings e.bp_systolic e.bp_diastolic ++
    glucose_warnings e.blood_glucose_mg_dl ++
    bmi_cat_warnings e.bmi_category

/-! ## Dictionary lemmas -/

theorem dget_eq_none_of_not_mem {K V : Type} [DecidableEq K]
    (l : List (K × V)) (k : K) (h : k ∉ l.map Prod.fst) :
    dget l k = none := by
  induction l with
  | nil => rfl
  | cons hd tl ih =>
    obtain ⟨k0, v0⟩ := hd
    simp only [List.map_cons, List.mem_cons] at h
    push_neg at h
    simp only [dget, if_neg (fun hc : k0 = k => h.1 hc.symm)]
    exact ih h.2

theorem dget_dput_self {K V : Type} [DecidableEq K] (l : List (K × V))
    (k : K) (v : V) : dget (dput l k v) k = some v := by
  induction l with
  | nil => simp [dget, dput]
  | cons hd tl ih =>
    obtain ⟨k0, v0⟩ := hd
    by_cases h0 : k0 = k
    · subst h0
      simp [dput, dget]
    · simp only [dput, if_neg h0, dget, if_neg h0]
      exact ih

theorem dget_dput_ne {K V : Type} [DecidableEq K] (l : List (K × V))
    (k k' : K) (v : V) (h : k' ≠ k) :
    dget (dput l k v) k' = dget l k' := by
  have hne : ¬ (k = k') := fun hc => h hc.symm
  induction l with
  | nil => simp only [dput, dget, if_neg hne]
  | cons hd tl ih =>
    obtain ⟨k0, v0⟩ := hd
    by_cases h0 : k0 = k
    · subst h0
      simp only [dput, if_pos rfl, dget, if_neg hne]
    · simp only [dput, if_neg h0, dget]
      by_cases h1 : k0 = k'
      · simp only [if_pos h1]
      · simp only [if_neg h1]
        exact ih

theorem dget_ddel_ne {K V : Type} [DecidableEq K] (l : List (K × V))
    (k k' : K) (h : k' ≠ k) : dget (ddel l k) k' = dget l k' := by
  induction l with
  | nil => rfl
  | cons hd tl ih =>
    obtain ⟨k0, v0⟩ := hd
    by_cases h0 : k0 = k
    · subst h0
      have hne : ¬ (k0 = k') := fun hc => h hc.symm
      simp [ddel, dget, hne]
    · simp only [ddel, if_neg h0, dget]
      by_cases h1 : k0 = k'
      · simp only [if_pos h1]
      · simp only [if_neg h1]
        exact ih

theorem dget_ddel_self {K V : Type} [DecidableEq K] (l : List (K × V))
    (k : K) (h : dkeysNodup l) : dget (ddel l k) k = none := by
  induction l with
  | nil => rfl
  | cons hd tl ih =>
    obtain ⟨k0, v0⟩ := hd
    simp only [dkeysNodup, List.map_cons, List.nodup_cons] at h
    by_cases h0 : k0 = k
    · subst h0
      simp only [ddel, if_pos rfl]
      exact dget_eq_none_of_not_mem tl k0 h.1
    · simp only [ddel, if_neg h0, dget, if_neg h0]
      exact ih h.2

theorem dget_mem {K V : Type} [DecidableEq K] (l : List (K × V)) (k : K)
    (v : V) (h : dget l k = some v) : (k, v) ∈ l := by
  induction l with
  | nil => simp [dget] at h
  | cons hd tl ih =>
    obtain ⟨k0, v0⟩ := hd
    by_cases h0 : k0 = k
    · subst h0
      simp only [dget] at h
      rw [if_pos trivial] at h
      cases h
      exact List.mem_cons_self _ _
    · simp only [dget, if_neg h0] at h
      exact List.mem_cons_of_mem _ (ih h)

theorem dmem_dput {K V : Type} [DecidableEq K] (l : List (K × V))
    (k : K) (v : V) (p : K × V) (h : p ∈ dput l k v) :
    p = (k, v) ∨ p ∈ l := by
  induction l with
  | nil => simpa [dput] using h
  | cons hd tl ih =>
    obtain ⟨k0, v0⟩ := hd
    by_cases h0 : k0 = k
    · simp only [dput, if_pos h0, List.mem_cons] at h
      rcases h with h | h
      · exact Or.inl h
      · exact Or.inr (List.mem_cons_of_mem _ h)
    · simp only [dput, if_neg h0, List.mem_cons] at h
      rcases h with h | h
      · exact Or.inr (by simp [h])
      · rcases ih h with h1 | h1
        · exact Or.inl h1
        · exact Or.inr (List.mem_cons_of_mem _ h1)

theorem dmem_ddel {K V : Type} [DecidableEq K] (l : List (K × V)) (k : K)
    (p : K × V) (h : p ∈ ddel l k) : p ∈ l := by
  induction l with
  | nil => simpa [ddel] using h
  | cons hd tl ih =>
    obtain ⟨k0, v0⟩ := hd
    by_cases h0 : k0 = k
    · simp only [ddel, if_pos h0] at h
      exact List.mem_cons_of_mem _ h
    · simp only [ddel, if_neg h0, List.mem_cons] at h
      rcases h with h | h
      · simp [h]
      · exact List.mem_cons_of_mem _ (ih h)

theorem dkeysNodup_dput {K V : Type} [DecidableEq K] (l : List (K × V))
    (k : K) (v : V) (h : dkeysNodup l) : dkeysNodup (dput l k v) := by
  induction l with
  | nil => simp [dput, dkeysNodup]
  | cons hd tl ih =>
    obtain ⟨k0, v0⟩ := hd
    simp only [dkeysNodup, List.map_cons, List.nodup_cons] at h
    by_cases h0 : k0 = k
    · subst h0
      simp only [dput, dkeysNodup]
      rw [if_pos trivial]
      simp only [List.map_cons, List.nodup_cons]
      exact h
    · have hmem : k0 ∉ (dput tl k v).map Prod.fst := by
        intro hc
        rcases List.mem_map.1 hc with ⟨p, hp, hpk⟩
        rcases dmem_dput tl k v p hp with h1 | h1
        · exact h0 (by rw [← hpk, h1])
        · exact h.1 (List.mem_map.2 ⟨p, h1, hpk⟩)
      simp only [dput, if_neg h0, dkeysNodup, List.map_cons, List.nodup_cons]
      exact ⟨hmem, ih h.2⟩

/-! ## Booking-count lemmas -/

theorem countB_cons (k : ℤ) (b : Booking) (tl : BookingStore) (no : String) :
    countB ((k, b) :: tl) no =
      countB tl no + (if b.flight_no = no then 1 else 0) := by
  by_cases hb : b.flight_no = no <;>
    simp [countB, List.filter_cons, hb] <;> omega

theorem countB_dput_not_mem (bs : BookingStore) (tid : ℤ) (b : Booking)
    (no : String) (h : dget bs tid = none) :
    countB (dput bs tid b) no =
      countB bs no + (if b.flight_no = no then 1 else 0) := by
  induction bs with
  | nil =>
    simp only [dput]
    rw [countB_cons]
  | cons hd tl ih =>
    obtain ⟨k0, b0⟩ := hd
    by_cases h0 : k0 = tid
    · subst h0
      simp [dget] at h
    · simp only [dget, if_neg h0] at h
      simp only [dput, if_neg h0]
      rw [countB_cons, countB_cons, ih h]
      omega

theorem countB_dput_mem (bs : BookingStore) (tid : ℤ) (b b' : Booking)
    (no : String) (h : dget bs tid = some b') :
    countB (dput bs tid b) no + (if b'.flight_no = no then 1 else 0) =
      countB bs no + (if b.flight_no = no then 1 else 0) := by
  induction bs with
  | nil => simp [dget] at h
  | cons hd tl ih =>
    obtain ⟨k0, b0⟩ := hd
    by_cases h0 : k0 = tid
    · subst h0
      have hb0 : b0 = b' := by simpa [dget] using h
      subst hb0
      simp only [dput]
      rw [if_pos trivial, countB_cons, countB_cons]
      omega
    · simp only [dget, if_neg h0] at h
      simp only [dput, if_neg h0]
      rw [countB_cons, countB_cons]
      have := ih h
      omega

theorem countB_ddel_mem (bs : BookingStore) (tid : ℤ) (b' : Booking)
    (no : String) (h : dget bs tid = some b') :
    countB (ddel bs tid) no + (if b'.flight_no = no then 1 else 0) =
      countB bs no := by
  induction bs with
  | nil => simp [dget] at h
  | cons hd tl ih =>
    obtain ⟨k0, b0⟩ := hd
    by_cases h0 : k0 = tid
    · subst h0
      have hb0 : b0 = b' := by simpa [dget] using h
      subst hb0
      simp only [ddel]
      rw [if_pos trivial, countB_cons]
    · simp only [dget, if_neg h0] at h
      simp only [ddel, if_neg h0]
      rw [countB_cons, countB_cons]
      have := ih h
      omega

theorem countB_eq_zero (bs : BookingStore) (no : String)
    (h : ∀ p ∈ bs, p.2.flight_no ≠ no) : countB bs no = 0 := by
  simp only [countB, List.length_eq_zero, List.filter_eq_nil_iff]
  intro p hp
  simpa using h p hp

/-! ## Preservation of the strengthened seat invariant -/

theorem invStrong_add (fs : FlightStore) (bs : BookingStore)
    (no dest : String) (seats : ℤ) (price : ℚ)
    (h : invStrong ⟨fs, bs⟩) (hseats : 0 ≤ seats) :
    invStrong ⟨add_flight fs no dest seats price, bs⟩ := by
  obtain ⟨h1, h2⟩ := h
  unfold add_flight
  cases hget : dget fs no with
  | some f => exact ⟨h1, h2⟩
  | none =>
    constructor
    · intro no' f' hget'
      by_cases hno : no = no'
      · subst hno
        rw [dget_dput_self] at hget'
        cases hget'
        have hcount : countB bs no = 0 := by
          apply countB_eq_zero
          intro p hp hpno
          obtain ⟨f0, hf0⟩ := h2 p hp
          rw [hpno] at hf0
          rw [hget] at hf0
          exact Option.noConfusion hf0
        simp only [hcount]
        constructor
        · exact hseats
        · omega
      · rw [dget_dput_ne fs no no' _ (fun hc => hno hc.symm)] at hget'
        exact h1 no' f' hget'
    · intro p hp
      obtain ⟨f0, hf0⟩ := h2 p hp
      by_cases hno : p.2.flight_no = no
      · rw [hno, hget] at hf0
        exact Option.noConfusion hf0
      · exact ⟨f0, by rwa [dget_dput_ne fs no _ _ hno]⟩

theorem invStrong_update (fs : FlightStore) (bs : BookingStore)
    (no : String) (price : ℚ) (h : invStrong ⟨fs, bs⟩) :
    invStrong ⟨update_price fs no price, bs⟩ := by
  obtain ⟨h1, h2⟩ := h
  unfold update_price
  cases hget : dget fs no with
  | none => exact ⟨h1, h2⟩
  | some f =>
    constructor
    · intro no' f' hget'
      by_cases hno : no = no'
      · subst hno
        rw [dget_dput_self] at hget'
        cases hget'
        exact h1 no f hget
      · rw [dget_dput_ne fs no no' _ (fun hc => hno hc.symm)] at hget'
        exact h1 no' f' hget'
    · intro p hp
      obtain ⟨f0, hf0⟩ := h2 p hp
      by_cases hno : p.2.flight_no = no
      · exact ⟨{ f with price := price }, by rw [hno, dget_dput_self]⟩
      · exact ⟨f0, by rwa [dget_dput_ne fs no _ _ hno]⟩

theorem invStrong_book (fs : FlightStore) (bs : BookingStore)
    (name no : String) (h : invStrong ⟨fs, bs⟩) :
    invStrong ⟨(book_ticket bs name no fs).2, (book_ticket bs name no fs).1⟩ := by
  obtain ⟨h1, h2⟩ := h
  dsimp only at h1 h2
  cases hget : dget fs no with
  | none =>
    simp only [book_ticket, hget]
    exact ⟨h1, h2⟩
  | some flight =>
    by_cases hav : flight.available_seats ≤ 0
    · simp only [book_ticket, hget, if_pos hav]
      exact ⟨h1, h2⟩
    · simp only [book_ticket, hget, if_neg hav]
      constructor
      · intro no' f' hget'
        have hbounds := h1 no flight hget
        by_cases hno : no = no'
        · subst hno
          rw [dget_dput_self] at hget'
          cases hget'
          simp only
          cases hdt : dget bs ((dlen bs : ℤ) + 1) with
          | none =>
            rw [countB_dput_not_mem bs _ _ no hdt]
            simp only [if_pos rfl]
            push_cast
            omega
          | some b' =>
            have hc := countB_dput_mem bs ((dlen bs : ℤ) + 1)
              ⟨name, no⟩ b' no hdt
            simp only [if_pos rfl] at hc
            by_cases hb' : b'.flight_no = no <;> simp [hb'] at hc <;>
              push_cast <;> omega
        · rw [dget_dput_ne fs no no' _ (fun hc => hno hc.symm)] at hget'
          have hb := h1 no' f' hget'
          cases hdt : dget bs ((dlen bs : ℤ) + 1) with
          | none =>
            rw [countB_dput_not_mem bs _ _ no' hdt]
            simp only [if_neg hno]
            push_cast
            omega
          | some b' =>
            have hc := countB_dput_mem bs ((dlen bs : ℤ) + 1)
              ⟨name, no⟩ b' no' hdt
            simp only [if_neg hno] at hc
            by_cases hb' : b'.flight_no = no' <;> simp [hb'] at hc <;>
              push_cast <;> omega
      · intro p hp
        rcases dmem_dput bs _ _ p hp with hpe | hpm
        · subst hpe
          exact ⟨_, dget_dput_self fs no _⟩
        · obtain ⟨f0, hf0⟩ := h2 p hpm
          by_cases hno : p.2.flight_no = no
          · exact ⟨_, by rw [hno, dget_dput_self]⟩
          · exact ⟨f0, by rwa [dget_dput_ne fs no _ _ hno]⟩

theorem invStrong_cancel (fs : FlightStore) (bs : BookingStore) (tid : ℤ)
    (h : invStrong ⟨fs, bs⟩) :
    invStrong ⟨(cancel_booking bs tid fs).2, (cancel_booking bs tid fs).1⟩ := by
  obtain ⟨h1, h2⟩ := h
  dsimp only at h1 h2
  cases hgb : dget bs tid with
  | none =>
    simp only [cancel_booking, hgb]
    exact ⟨h1, h2⟩
  | some booking =>
    obtain ⟨f0, hgf⟩ := h2 (tid, booking) (dget_mem bs tid booking hgb)
    simp only at hgf
    simp only [cancel_booking, hgb, hgf]
    constructor
    · intro no' f' hget'
      have hcnt := countB_ddel_mem bs tid booking no' hgb
      by_cases hno : booking.flight_no = no'
      · subst hno
        rw [dget_dput_self] at hget'
        cases hget'
        have hbounds := h1 booking.flight_no f0 hgf
        simp at hcnt
        simp only
        push_cast
        omega
      · rw [dget_dput_ne fs booking.flight_no no' _
          (fun hc => hno hc.symm)] at hget'
        have hbounds := h1 no' f' hget'
        simp only [if_neg hno] at hcnt
        push_cast
        omega
    · intro p hp
      have hpm := dmem_ddel bs tid p hp
      obtain ⟨f1, hf1⟩ := h2 p hpm
      by_cases hno : p.2.flight_no = booking.flight_no
      · exact ⟨_, by rw [hno, dget_dput_self]⟩
      · exact ⟨f1, by rwa [dget_dput_ne fs booking.flight_no _ _ hno]⟩

theorem invStrong_stepAir (s : AirState) (op : AirOp)
    (h : invStrong s) (hop : opSeatsOk op = true) :
    invStrong (stepAir s op) := by
  obtain ⟨fs, bs⟩ := s
  cases op with
  | addFlight no dest seats price =>
    simp only [opSeatsOk, decide_eq_true_eq] at hop
    exact invStrong_add fs bs no dest seats price h hop
  | updatePrice no price => exact invStrong_update fs bs no price h
  | bookTicket name no => exact invStrong_book fs bs name no h
  | cancelBooking tid => exact invStrong_cancel fs bs tid h

theorem invStrong_runOps (ops : List AirOp) (s : AirState)
    (h : invStrong s) (hops : ∀ op ∈ ops, opSeatsOk op = true) :
    invStrong (runOps ops s) := by
  induction ops generalizing s with
  | nil => exact h
  | cons op rest ih =>
    have h1 := invStrong_stepAir s op h (hops op (List.mem_cons_self _ _))
    exact ih (stepAir s op) h1
      (fun o ho => hops o (List.mem_cons_of_mem _ ho))

theorem flightBounds_of_invStrong (s : AirState) (h : invStrong s) :
    flightBounds s := by
  intro no f hget
  obtain ⟨h1, _⟩ := h
  have := h1 no f hget
  have hc : (0 : ℤ) ≤ (countB s.bookings no : ℤ) := Int.natCast_nonneg _
  omega

theorem invStrong_initAir : invStrong initAir := by
  constructor
  · intro no f hget
    simp [initAir, dget] at hget
  · intro p hp
    simp [initAir] at hp

/-! ## C1: seat bounds invariant -/

/-- C1 counterexample: the claim "0 ≤ available_seats ≤ seats after every
operation, for every sequence of operations from the empty store" is false
as stated: `add_flight` does not validate its seat count, so a single
`add_flight` with `seats = -1` stores a flight with
`available_seats = -1 < 0`. -/
theorem c1_seat_bounds_counterexample :
    ¬ (∀ ops : List AirOp, flightBounds (runOps ops initAir)) := by
  intro h
  have hb := h [AirOp.addFlight "F1" "Delhi" (-1) 50] "F1"
    ⟨"Delhi", -1, -1, 50⟩ (by rfl)
  simp only at hb
  omega

/-- C1 (amended): for every flight record in the flight store, the bounds
`0 ≤ available_seats ≤ seats` hold after every operation (`add_flight`,
`update_price`, `book_ticket`, `cancel_booking`), for every sequence of
operations starting from the empty store in which every `add_flight`
operation is given a non-negative seats argument. -/
theorem c1_seat_bounds :
    ∀ ops : List AirOp, (∀ op ∈ ops, opSeatsOk op = true) →
      flightBounds (runOps ops initAir) :=
  fun ops hops =>
    flightBounds_of_invStrong _ (invStrong_runOps ops initAir
      invStrong_initAir hops)

/-- C1 witness: the spec's end-to-end example sequence satisfies the seat
bounds. -/
theorem c1_seat_bounds_witness :
    (∀ op ∈ ([AirOp.addFlight "AI101" "Delhi" 100 50,
      AirOp.bookTicket "Alice" "AI101",
      AirOp.cancelBooking 1] : List AirOp), opSeatsOk op = true) ∧
    flightBounds (runOps [AirOp.addFlight "AI101" "Delhi" 100 50,
      AirOp.bookTicket "Alice" "AI101",
      AirOp.cancelBooking 1] initAir) :=
  ⟨by decide, c1_seat_bounds _ (by decide)⟩

/-! ## C3: ticket id assignment and reuse -/

/-- C3: when the flight exists and has available seats, `book_ticket`
stores the new booking under ticket id `len(bookings) + 1`; and the id is
not stable once bookings are deleted: after two bookings, one
cancellation and one new booking, the newly assigned ticket id (2) equals
the id of an existing booking. -/
theorem c3_ticket_id_reuse :
    (∀ (bs : BookingStore) (name no : String) (fs : FlightStore)
      (f : Flight), dget fs no = some f → 0 < f.available_seats →
      dget (book_ticket bs name no fs).1 ((dlen bs : ℤ) + 1) =
        some ⟨name, no⟩) ∧
    (dlen (runOps [AirOp.addFlight "F1" "Delhi" 5 50,
        AirOp.bookTicket "A" "F1", AirOp.bookTicket "B" "F1",
        AirOp.cancelBooking 1] initAir).bookings + 1 = 2 ∧
      (dget (runOps [AirOp.addFlight "F1" "Delhi" 5 50,
        AirOp.bookTicket "A" "F1", AirOp.bookTicket "B" "F1",
        AirOp.cancelBooking 1] initAir).bookings 2).isSome = true) := by
  constructor
  · intro bs name no fs f hget hav
    have hne : ¬ (f.available_seats ≤ 0) := by omega
    simp only [book_ticket, hget, if_neg hne]
    exact dget_dput_self bs _ _
  · exact ⟨by rfl, by rfl⟩

/-- C3 witness: booking on a one-flight store assigns ticket id 1. -/
theorem c3_ticket_id_reuse_witness :
    dget (book_ticket ([] : BookingStore) "Alice" "AI101"
      [("AI101", ⟨"Delhi", 100, 100, 50⟩)]).1
      ((dlen ([] : BookingStore) : ℤ) + 1) = some ⟨"Alice", "AI101"⟩ :=
  c3_ticket_id_reuse.1 [] "Alice" "AI101"
    [("AI101", ⟨"Delhi", 100, 100, 50⟩)] ⟨"Delhi", 100, 100, 50⟩
    (by rfl) (by norm_num)

/-! ## C4: book then cancel is a round trip -/

/-- C4: if `book_ticket` succeeds and `cancel_booking` is immediately
applied to the ticket id it assigned, the flight's available seats equal
their pre-booking value and the booking is removed from the booking
store. -/
theorem c4_book_cancel_roundtrip :
    ∀ (fs : FlightStore) (bs : BookingStore) (name no : String)
      (f : Flight), dkeysNodup bs → dget fs no = some f →
      0 < f.available_seats →
      (∃ f', dget (cancel_booking (book_ticket bs name no fs).1
          ((dlen bs : ℤ) + 1) (book_ticket bs name no fs).2).2 no =
            some f' ∧
        f'.available_seats = f.available_seats) ∧
      dget (cancel_booking (book_ticket bs name no fs).1
        ((dlen bs : ℤ) + 1) (book_ticket bs name no fs).2).1
        ((dlen bs : ℤ) + 1) = none := by
  intro fs bs name no f hnd hget hav
  have hne : ¬ (f.available_seats ≤ 0) := by omega
  simp only [book_ticket, hget, if_neg hne]
  have hb : dget (dput bs ((dlen bs : ℤ) + 1) ⟨name, no⟩)
      ((dlen bs : ℤ) + 1) = some ⟨name, no⟩ := dget_dput_self bs _ _
  simp only [cancel_booking, hb]
  have hf : dget (dput fs no
      { f with available_seats := f.available_seats - 1 }) no =
      some { f with available_seats := f.available_seats - 1 } :=
    dget_dput_self fs _ _
  simp only [hf]
  constructor
  · refine ⟨_, dget_dput_self _ _ _, ?_⟩
    simp only
    omega
  · exact dget_ddel_self _ _ (dkeysNodup_dput bs _ _ hnd)

/-- C4 witness: book then cancel on a concrete one-flight store restores
the available seats and removes the booking. -/
theorem c4_book_cancel_roundtrip_witness :
    (∃ f', dget (cancel_booking (book_ticket ([] : BookingStore) "Alice"
        "AI101" [("AI101", ⟨"Delhi", 100, 100, 50⟩)]).1
        ((dlen ([] : BookingStore) : ℤ) + 1)
        (book_ticket ([] : BookingStore) "Alice" "AI101"
          [("AI101", ⟨"Delhi", 100, 100, 50⟩)]).2).2 "AI101" = some f' ∧
      f'.available_seats = (⟨"Delhi", 100, 100, 50⟩ : Flight).available_seats) ∧
    dget (cancel_booking (book_ticket ([] : BookingStore) "Alice" "AI101"
      [("AI101", ⟨"Delhi", 100, 100, 50⟩)]).1
      ((dlen ([] : BookingStore) : ℤ) + 1)
      (book_ticket ([] : BookingStore) "Alice" "AI101"
        [("AI101", ⟨"Delhi", 100, 100, 50⟩)]).2).1
      ((dlen ([] : BookingStore) : ℤ) + 1) = none :=
  c4_book_cancel_roundtrip [("AI101", ⟨"Delhi", 100, 100, 50⟩)] []
    "Alice" "AI101" ⟨"Delhi", 100, 100, 50⟩ (by simp [dkeysNodup]) (by rfl)
    (by norm_num)

/-! ## C5: booking with zero availability is rejected -/

/-- C5: for a flight whose `available_seats` is 0, `book_ticket` is
rejected and leaves both stores unchanged (so nothing is decremented and
no booking is added). -/
theorem c5_book_zero_seats :
    ∀ (bs : BookingStore) (name no : String) (fs : FlightStore)
      (f : Flight), dget fs no = some f → f.available_seats = 0 →
      book_ticket bs name no fs = (bs, fs) := by
  intro bs name no fs f hget hzero
  have hle : f.available_seats ≤ 0 := le_of_eq hzero
  simp only [book_ticket, hget, if_pos hle]

/-- C5 witness: booking on a concrete sold-out flight changes nothing. -/
theorem c5_book_zero_seats_witness :
    book_ticket ([] : BookingStore) "Alice" "AI101"
      [("AI101", ⟨"Delhi", 100, 0, 50⟩)] =
      ([], [("AI101", ⟨"Delhi", 100, 0, 50⟩)]) :=
  c5_book_zero_seats [] "Alice" "AI101"
    [("AI101", ⟨"Delhi", 100, 0, 50⟩)] ⟨"Delhi", 100, 0, 50⟩ (by rfl)
    (by norm_num)

/-! ## C6: duplicate flight numbers are rejected -/

/-- C6: `add_flight` with an already-present flight number is rejected and
leaves the whole store — in particular the existing record — unchanged,
regardless of the new arguments. -/
theorem c6_duplicate_add_flight :
    ∀ (fs : FlightStore) (no dest : String) (seats : ℤ) (price : ℚ)
      (f : Flight), dget fs no = some f →
      add_flight fs no dest seats price = fs ∧
      dget (add_flight fs no dest seats price) no = some f := by
  intro fs no dest seats price f hget
  constructor
  · simp only [add_flight, hget]
  · simp only [add_flight, hget]

/-- C6 witness: re-adding flight AI101 with different attributes leaves
the original record in place. -/
theorem c6_duplicate_add_flight_witness :
    add_flight [("AI101", ⟨"Delhi", 100, 100, 50⟩)] "AI101" "Mumbai" 7 9 =
      [("AI101", ⟨"Delhi", 100, 100, 50⟩)] ∧
    dget (add_flight [("AI101", ⟨"Delhi", 100, 100, 50⟩)] "AI101"
      "Mumbai" 7 9) "AI101" = some ⟨"Delhi", 100, 100, 50⟩ :=
  c6_duplicate_add_flight [("AI101", ⟨"Delhi", 100, 100, 50⟩)] "AI101"
    "Mumbai" 7 9 ⟨"Delhi", 100, 100, 50⟩ (by rfl)

/-! ## C7: repayment floors the balance at zero -/

/-- Helper: updating balances via `UPDATE loans SET balance=? WHERE id=?`
leaves every row's status unchanged. -/
theorem map_balance_update_status (loans : List Loan) (loan_id : ℕ)
    (nb : ℚ) :
    (loans.map (fun l' => if l'.id = loan_id then
      { l' with balance := nb } else l')).map Loan.status =
      loans.map Loan.status := by
  induction loans with
  | nil => rfl
  | cons hd tl ih =>
    simp only [List.map_cons, ih]
    by_cases hid : hd.id = loan_id
    · simp [hid]
    · simp [hid]

/-- C7: for a loan with outstanding balance `b` and a repayment `p`,
`repay_loan` stores `b - p` when `b - p ≥ 0` and `0` otherwise; the stored
balance is never negative; and repayment changes no row's status. -/
theorem c7_repay_floor :
    ∀ (loans : List Loan) (loan_id : ℕ) (payment : ℚ) (l : Loan),
      loans.find? (fun x => x.id = loan_id) = some l →
      (∀ l' ∈ repay_loan loans loan_id payment, l'.id = loan_id →
        l'.balance = (if 0 ≤ l.balance - payment then l.balance - payment
          else 0) ∧ 0 ≤ l'.balance) ∧
      (repay_loan loans loan_id payment).map Loan.status =
        loans.map Loan.status := by
  intro loans loan_id payment l hfind
  constructor
  · intro l' hl' hid
    simp only [repay_loan, hfind] at hl'
    rcases List.mem_map.1 hl' with ⟨x, hx, hfx⟩
    by_cases hxid : x.id = loan_id
    · rw [if_pos hxid] at hfx
      subst hfx
      simp only
      constructor
      · split_ifs with h1 h2 h2 <;> first | rfl | linarith
      · split_ifs with h1 <;> linarith
    · rw [if_neg hxid] at hfx
      subst hfx
      exact absurd hid hxid
  · simp only [repay_loan, hfind]
    exact map_balance_update_status loans loan_id _

/-- C7 witness: repaying 150 on a balance of 100 stores balance 0. -/
theorem c7_repay_floor_witness :
    (∀ l' ∈ repay_loan [⟨1, 1, 100, 5, 12, "Approved", 100⟩] 1 150,
      l'.id = 1 →
      l'.balance = (if (0 : ℚ) ≤ 100 - 150 then 100 - 150 else 0) ∧
        0 ≤ l'.balance) ∧
    (repay_loan [⟨1, 1, 100, 5, 12, "Approved", 100⟩] 1 150).map
      Loan.status = [⟨1, 1, 100, 5, 12, "Approved", 100⟩].map Loan.status :=
  c7_repay_floor [⟨1, 1, 100, 5, 12, "Approved", 100⟩] 1 150
    ⟨1, 1, 100, 5, 12, "Approved", 100⟩ (by rfl)

/-! ## C8: approval and rejection overwrite the status unconditionally -/

/-- C8: `approve_loan` and `reject_loan` overwrite the named loan's status
with no guard on the current status — any row whose id matches, whatever
its status (including "Rejected"), becomes "Approved" (resp. "Rejected")
with every other field unchanged; rows with a different id are untouched. -/
theorem c8_status_overwrite :
    ∀ (loans : List Loan) (loan_id : ℕ) (i : ℕ) (l : Loan),
      loans[i]? = some l →
      (∃ l', (approve_loan loans loan_id)[i]? = some l' ∧
        (l.id = loan_id → l' = { l with status := "Approved" }) ∧
        (l.id ≠ loan_id → l' = l)) ∧
      (∃ l'', (reject_loan loans loan_id)[i]? = some l'' ∧
        (l.id = loan_id → l'' = { l with status := "Rejected" }) ∧
        (l.id ≠ loan_id → l'' = l)) := by
  intro loans loan_id i l hget
  constructor
  · refine ⟨if l.id = loan_id then { l with status := "Approved" } else l,
      ?_, ?_, ?_⟩
    · simp only [approve_loan, List.getElem?_map, hget]
      rfl
    · intro h
      rw [if_pos h]
    · intro h
      rw [if_neg h]
  · refine ⟨if l.id = loan_id then { l with status := "Rejected" } else l,
      ?_, ?_, ?_⟩
    · simp only [reject_loan, List.getElem?_map, hget]
      rfl
    · intro h
      rw [if_pos h]
    · intro h
      rw [if_neg h]

/-- C8 witness: a Rejected loan is re-Approved by `approve_loan`. -/
theorem c8_status_overwrite_witness :
    (∃ l', (approve_loan [⟨1, 1, 100, 5, 12, "Rejected", 100⟩] 1)[0]? =
        some l' ∧
      ((⟨1, 1, 100, 5, 12, "Rejected", 100⟩ : Loan).id = 1 →
        l' = { (⟨1, 1, 100, 5, 12, "Rejected", 100⟩ : Loan) with
          status := "Approved" }) ∧
      ((⟨1, 1, 100, 5, 12, "Rejected", 100⟩ : Loan).id ≠ 1 →
        l' = ⟨1, 1, 100, 5, 12, "Rejected", 100⟩)) ∧
    (∃ l'', (reject_loan [⟨1, 1, 100, 5, 12, "Rejected", 100⟩] 1)[0]? =
        some l'' ∧
      ((⟨1, 1, 100, 5, 12, "Rejected", 100⟩ : Loan).id = 1 →
        l'' = { (⟨1, 1, 100, 5, 12, "Rejected", 100⟩ : Loan) with
          status := "Rejected" }) ∧
      ((⟨1, 1, 100, 5, 12, "Rejected", 100⟩ : Loan).id ≠ 1 →
        l'' = ⟨1, 1, 100, 5, 12, "Rejected", 100⟩)) :=
  c8_status_overwrite [⟨1, 1, 100, 5, 12, "Rejected", 100⟩] 1 0
    ⟨1, 1, 100, 5, 12, "Rejected", 100⟩ (by rfl)

/-! ## C9: BMI value for 70 kg / 175 cm -/

/-- C9: `calc_bmi 70 175` returns 22.86, which is within 0.01 of the raw
weight/height² ratio, and `bmi_category` classifies it as "Normal". -/
theorem c9_bmi_normal :
    calc_bmi 70 175 = 2286 / 100 ∧
    |calc_bmi 70 175 - 70 / ((175 / 100) * (175 / 100))| ≤ 1 / 100 ∧
    bmi_category (calc_bmi 70 175) = "Normal" := by
  have hr : round ((16000 : ℚ) / 7) = 2286 := by
    rw [round_eq]
    rw [show (16000 : ℚ) / 7 + 1 / 2 = 32007 / 14 by norm_num]
    rw [Int.floor_eq_iff]
    norm_num
  refine ⟨?_, ?_, ?_⟩ <;> norm_num [calc_bmi, pyRound2, pyRound,
    bmi_category, abs_le, hr]

/-! ## C10: non-positive height gives BMI 0.0, category "unknown", no
BMI warning -/

/-- C10: for every weight and every non-positive height, `calc_bmi`
returns 0 (no division by zero occurs), `bmi_category` of that result is
"unknown", and an entry whose BMI category is "unknown" triggers no
BMI-category warning from `flag_vitals` (its warnings equal those of the
same entry with an empty BMI category). -/
theorem c10_nonpositive_height :
    ∀ (w h : ℚ), h ≤ 0 →
      calc_bmi w h = 0 ∧
      bmi_category (calc_bmi w h) = "unknown" ∧
      ∀ e : Entry, e.bmi_category = "unknown" →
        flag_vitals e = flag_vitals { e with bmi_category := "" } := by
  intro w h hh
  have h0 : calc_bmi w h = 0 := by simp [calc_bmi, hh]
  refine ⟨h0, ?_, ?_⟩
  · rw [h0]
    simp [bmi_category]
  · intro e he
    simp [flag_vitals, bmi_cat_warnings, he]

/-- C10 witness: weight 70, height 0, and a concrete entry with category
"unknown" and otherwise normal vitals. -/
theorem c10_nonpositive_height_witness :
    (0 : ℚ) ≤ 0 ∧ calc_bmi 70 0 = 0 ∧
    bmi_category (calc_bmi 70 0) = "unknown" ∧
    flag_vitals ⟨some 37, some 70, some 120, some 80, some 90, "unknown"⟩ =
      flag_vitals ⟨some 37, some 70, some 120, some 80, some 90, ""⟩ :=
  ⟨le_refl 0, (c10_nonpositive_height 70 0 (le_refl 0)).1,
    (c10_nonpositive_height 70 0 (le_refl 0)).2.1,
    (c10_nonpositive_height 70 0 (le_refl 0)).2.2
      ⟨some 37, some 70, some 120, some 80, some 90, "unknown"⟩ rfl⟩

/-! ## C2: error handling at the menu prompts -/

/-- Helper: the airline menu body can only raise `ValueError` (the only
conversions it performs are `int(...)`/`float(...)` on raw input). -/
theorem airlineMenuBody_error_valueError (choice : String)
    (inp : AirInputs) (s : AirState) (e : PyErr)
    (hb : airlineMenuBody choice inp s = Except.error e) :
    e = PyErr.valueError := by
  obtain ⟨fno, dest, pname, seats, price, tid⟩ := inp
  cases seats <;> cases price <;> cases tid <;>
    unfold airlineMenuBody at hb <;> split at hb <;>
    simp_all [pyInt, pyFloat, Bind.bind, Except.bind]

/-- C2 counterexample: the claim that all three programs catch invalid
numeric input is false for the loan system: with a registered customer,
`apply_loan` on a non-numeric loan amount — and `repay_loan` on a
non-numeric repayment amount — raises an uncaught `ValueError` that
escapes the menu loop (the process terminates abnormally). -/
theorem c2_error_handling_counterexample :
    bankMenuStep "2"
      ⟨"", "alice@mail.com", "", 1, none, some 5, some 12, none⟩
      ⟨[⟨1, "Alice", "alice@mail.com", "123"⟩], []⟩ =
      Except.error PyErr.valueError ∧
    bankMenuStep "6"
      ⟨"", "alice@mail.com", "", 1, some 100, some 5, some 12, none⟩
      ⟨[⟨1, "Alice", "alice@mail.com", "123"⟩],
        [⟨1, 1, 100, 5, 12, "Pending", 100⟩]⟩ =
      Except.error PyErr.valueError := by
  constructor <;> rfl

/-- C2 (amended): the airline menu wraps its body in
`try ... except ValueError`, so every iteration completes normally for
every choice and every raw input; the loan system has no handler at all,
so non-numeric amount input in `apply_loan` and non-numeric repayment
input in `repay_loan` raise an uncaught `ValueError` that terminates the
process. -/
theorem c2_error_handling :
    (∀ (choice : String) (inp : AirInputs) (s : AirState),
      ∃ t, airlineMenuStep choice inp s = Except.ok t) ∧
    bankMenuStep "2"
      ⟨"", "alice@mail.com", "", 1, none, some 5, some 12, none⟩
      ⟨[⟨1, "Alice", "alice@mail.com", "123"⟩], []⟩ =
      Except.error PyErr.valueError ∧
    bankMenuStep "6"
      ⟨"", "alice@mail.com", "", 1, some 100, some 5, some 12, none⟩
      ⟨[⟨1, "Alice", "alice@mail.com", "123"⟩],
        [⟨1, 1, 100, 5, 12, "Pending", 100⟩]⟩ =
      Except.error PyErr.valueError := by
  refine ⟨?_, by rfl, by rfl⟩
  intro choice inp s
  unfold airlineMenuStep
  cases hb : airlineMenuBody choice inp s with
  | ok t => exact ⟨t, rfl⟩
  | error e =>
    rw [airlineMenuBody_error_valueError choice inp s e hb]
    exact ⟨s, rfl⟩
